import Mathlib

/-!
Verification development for the event-booking repository.

The repository defines two mongoose models (`Event` in
src/database/event.model.ts and `Booking` in an unnamed model file) plus
pure string helpers `slugify`, `normalizeTime`, `normalizeDate`.  This file
gives a shallow embedding of those definitions over `List Char` and proves
the specification claims about them.

Modelling conventions:
- JavaScript strings are `List Char`.
- The JavaScript whitespace class `\s` is modelled by the common members
  (space, tab, LF, CR, VT, FF, NBSP); none of the claims depends on the
  more exotic Unicode space characters.
- JavaScript `Date` parsing is modelled by the ECMAScript Date Time String
  Format (the interchange format every engine must support);
  engine-specific lenient fallback parsing is outside the model.  The
  environment's timezone enters as an explicit parameter `off`, the number
  of minutes that must be added to UTC to obtain local time (the negation
  of JavaScript's `getTimezoneOffset()`).
- Fallible operations return `Except (List Char) _` mirroring `throw new
  Error(msg)`.
-/

-- Decidable equality for `Except`, needed so `decide` can evaluate the
-- embedded fallible operations at concrete inputs.
deriving instance DecidableEq for Except

/-- The modelled JavaScript whitespace class `\s`. -/
def isWs (c : Char) : Bool :=
  decide (c.toNat = 32 ∨ c.toNat = 9 ∨ c.toNat = 10 ∨ c.toNat = 13 ∨
    c.toNat = 11 ∨ c.toNat = 12 ∨ c.toNat = 160)

/-- JavaScript `toLowerCase` restricted to the ASCII letters (the only
characters whose case matters anywhere in this code base). -/
def jsToLower (c : Char) : Char :=
  if 65 ≤ c.toNat ∧ c.toNat ≤ 90 then Char.ofNat (c.toNat + 32) else c

/-- JavaScript `String.prototype.trim`: strip leading and trailing
whitespace. -/
def jsTrim (l : List Char) : List Char :=
  ((l.dropWhile isWs).reverse.dropWhile isWs).reverse

/-- The character class kept by the strip step of `slugify`
(`replace(/[^a-z0-9\s-]/g, "")` keeps exactly `[a-z0-9\s-]`). -/
def slugKeep (c : Char) : Bool :=
  decide ((97 ≤ c.toNat ∧ c.toNat ≤ 122) ∨ (48 ≤ c.toNat ∧ c.toNat ≤ 57)) ||
    isWs c || decide (c.toNat = 45)

/-- The hyphen class `[-]` used by the final collapse of `slugify`. -/
def isHyphen (c : Char) : Bool := decide (c.toNat = 45)

/-- `collapseRunsAux p r inRun l` replaces every maximal nonempty run of
characters satisfying `p` by the single character `r`; the flag records
whether the previous character was part of such a run.  This is the effect
of JavaScript `replace(/p+/g, r)`. -/
def collapseRunsAux (p : Char → Bool) (r : Char) : Bool → List Char → List Char
  | _, [] => []
  | inRun, c :: rest =>
    if p c then
      if inRun then collapseRunsAux p r true rest
      else r :: collapseRunsAux p r true rest
    else c :: collapseRunsAux p r false rest

/-- Replace each maximal run of `p`-characters by one `r`
(JavaScript `replace(/p+/g, r)`). -/
def collapseRuns (p : Char → Bool) (r : Char) (l : List Char) : List Char :=
  collapseRunsAux p r false l

/-- Embedding of `slugify` from src/database/event.model.ts: lower-case,
trim, strip every character outside `[a-z0-9\s-]`, replace each whitespace
run by one hyphen, then collapse hyphen runs to one hyphen. -/
def slugify (input : List Char) : List Char :=
  collapseRuns isHyphen '-'
    (collapseRuns isWs '-'
      ((jsTrim (input.map jsToLower)).filter slugKeep))

/-- A character of a well-formed slug: `[a-z0-9-]`. -/
def isSlugChar (c : Char) : Bool :=
  decide ((97 ≤ c.toNat ∧ c.toNat ≤ 122) ∨ (48 ≤ c.toNat ∧ c.toNat ≤ 57) ∨
    c.toNat = 45)

/-- `noRun p l` holds when no two adjacent characters of `l` both satisfy
`p` (in particular, for `p` the hyphen class: no duplicated hyphens). -/
def noRun (p : Char → Bool) : List Char → Bool
  | a :: b :: rest => !(p a && p b) && noRun p (b :: rest)
  | _ => true

/-- Is `c` an ASCII digit. -/
def isDigitCh (c : Char) : Bool := decide (48 ≤ c.toNat ∧ c.toNat ≤ 57)

/-- Numeric value of an ASCII digit. -/
def digitVal (c : Char) : Nat := c.toNat - 48

/-- The ASCII digit character for `n % 10`. -/
def digitChar (n : Nat) : Char :=
  match n % 10 with
  | 0 => '0' | 1 => '1' | 2 => '2' | 3 => '3' | 4 => '4'
  | 5 => '5' | 6 => '6' | 7 => '7' | 8 => '8' | _ => '9'

/-- `n` zero-padded to exactly `w` decimal digits (most significant
first); models `String(n).padStart(w, "0")` for `n < 10 ^ w`. -/
def padDigits : Nat → Nat → List Char
  | 0, _ => []
  | w + 1, n => digitChar (n / 10 ^ w) :: padDigits w n

/-- Two-digit zero-padded rendering. -/
def pad2 (n : Nat) : List Char := padDigits 2 n

/-- Three-digit zero-padded rendering. -/
def pad3 (n : Nat) : List Char := padDigits 3 n

/-- Branch (a) of `normalizeTime`: an anchored match of the 24-hour
pattern with hour `[01]?\d|2[0-3]` and minutes `[0-5]\d`, returning the
zero-padded `HH:mm` output of the source on success. -/
def parse24 : List Char → Option (List Char)
  | [h, ':', m1, m2] =>
    if isDigitCh h && decide (48 ≤ m1.toNat ∧ m1.toNat ≤ 53) && isDigitCh m2 then
      some ('0' :: h :: ':' :: m1 :: [m2])
    else none
  | [h1, h2, ':', m1, m2] =>
    if (decide ((h1.toNat = 48 ∨ h1.toNat = 49) ∧ 48 ≤ h2.toNat ∧ h2.toNat ≤ 57) ||
        decide (h1.toNat = 50 ∧ 48 ≤ h2.toNat ∧ h2.toNat ≤ 51)) &&
       decide (48 ≤ m1.toNat ∧ m1.toNat ≤ 53) && isDigitCh m2 then
      some (h1 :: h2 :: ':' :: m1 :: [m2])
    else none
  | _ => none

/-- Shared tail of branch (b): after the `H:mm` part, the source pattern
requires `\s*` then `am` or `pm` case-insensitively, and converts the
12-hour value `hh` (12 AM to 00, 12 PM to 12). -/
def ampmFinish (hh : Nat) (m1 m2 : Char) (rest : List Char) : Option (List Char) :=
  match rest.dropWhile isWs with
  | [p1, p2] =>
    if decide ((p1 = 'a' ∨ p1 = 'A') ∧ (p2 = 'm' ∨ p2 = 'M')) then
      some (pad2 (if hh = 12 then 0 else hh) ++ ':' :: m1 :: [m2])
    else if decide ((p1 = 'p' ∨ p1 = 'P') ∧ (p2 = 'm' ∨ p2 = 'M')) then
      some (pad2 (if hh = 12 then 12 else hh + 12) ++ ':' :: m1 :: [m2])
    else none
  | _ => none

/-- Branch (b) of `normalizeTime`: an anchored match of the 12-hour
pattern with hour `1[0-2]|0?[1-9]`, minutes `[0-5]\d`, optional spaces and
a case-insensitive meridiem.  The one-digit-hour and two-digit-hour shapes
are structurally disjoint (the position of the colon decides them). -/
def parseAmPm : List Char → Option (List Char)
  | h :: ':' :: m1 :: m2 :: rest =>
    if decide (49 ≤ h.toNat ∧ h.toNat ≤ 57) &&
       decide (48 ≤ m1.toNat ∧ m1.toNat ≤ 53) && isDigitCh m2 then
      ampmFinish (digitVal h) m1 m2 rest
    else none
  | h1 :: h2 :: ':' :: m1 :: m2 :: rest =>
    if (decide (h1.toNat = 48 ∧ 49 ≤ h2.toNat ∧ h2.toNat ≤ 57) ||
        decide (h1.toNat = 49 ∧ 48 ≤ h2.toNat ∧ h2.toNat ≤ 50)) &&
       decide (48 ≤ m1.toNat ∧ m1.toNat ≤ 53) && isDigitCh m2 then
      ampmFinish (digitVal h1 * 10 + digitVal h2) m1 m2 rest
    else none
  | _ => none

/-- A parsed ECMAScript time-of-day specification `HH:mm[:ss[.fff]]`
with its optional timezone annotation (offset in minutes, `Z` being 0). -/
structure TimeSpec where
  hh : Nat
  mm : Nat
  ss : Nat
  fff : Nat
  tz : Option Int
deriving DecidableEq

/-- Parse a trailing timezone annotation of the ECMAScript Date Time
String Format: nothing, `Z`, or a `±HH:mm` offset. -/
def parseTzPart : List Char → Option (Option Int)
  | [] => some none
  | ['Z'] => some (some 0)
  | ['+', h1, h2, ':', m1, m2] =>
    if isDigitCh h1 && isDigitCh h2 && isDigitCh m1 && isDigitCh m2 &&
       decide (digitVal h1 * 10 + digitVal h2 ≤ 23 ∧ digitVal m1 * 10 + digitVal m2 ≤ 59) then
      some (some ((digitVal h1 * 10 + digitVal h2) * 60 + (digitVal m1 * 10 + digitVal m2) : Nat))
    else none
  | ['-', h1, h2, ':', m1, m2] =>
    if isDigitCh h1 && isDigitCh h2 && isDigitCh m1 && isDigitCh m2 &&
       decide (digitVal h1 * 10 + digitVal h2 ≤ 23 ∧ digitVal m1 * 10 + digitVal m2 ≤ 59) then
      some (some (-(((digitVal h1 * 10 + digitVal h2) * 60 + (digitVal m1 * 10 + digitVal m2) : Nat) : Int)))
    else none
  | _ => none

/-- Parse the optional `:ss[.fff]` part; returns seconds, milliseconds and
the remaining characters. -/
def parseSecFrac : List Char → Option (Nat × Nat × List Char)
  | ':' :: s1 :: s2 :: rest =>
    if isDigitCh s1 && isDigitCh s2 && decide (digitVal s1 * 10 + digitVal s2 ≤ 59) then
      match rest with
      | '.' :: f1 :: f2 :: f3 :: rest2 =>
        if isDigitCh f1 && isDigitCh f2 && isDigitCh f3 then
          some (digitVal s1 * 10 + digitVal s2,
            digitVal f1 * 100 + digitVal f2 * 10 + digitVal f3, rest2)
        else none
      | _ => some (digitVal s1 * 10 + digitVal s2, 0, rest)
    else none
  | rest => some (0, 0, rest)

/-- Parse a full ECMAScript time specification
`HH:mm[:ss[.fff]][Z|±HH:mm]` (the part that may follow `T`). -/
def parseTimeSpecStr : List Char → Option TimeSpec
  | h1 :: h2 :: ':' :: m1 :: m2 :: rest =>
    if isDigitCh h1 && isDigitCh h2 && isDigitCh m1 && isDigitCh m2 then
      let hh := digitVal h1 * 10 + digitVal h2
      let mm := digitVal m1 * 10 + digitVal m2
      match parseSecFrac rest with
      | some (ss, fff, rest2) =>
        match parseTzPart rest2 with
        | some tz =>
          if decide (mm ≤ 59 ∧ (hh ≤ 23 ∨ (hh = 24 ∧ mm = 0 ∧ ss = 0 ∧ fff = 0))) then
            some ⟨hh, mm, ss, fff, tz⟩
          else none
        | none => none
      | none => none
    else none
  | _ => none

/-- Milliseconds past local midnight written in a time specification. -/
def tsWrittenMs (ts : TimeSpec) : Int :=
  (ts.hh * 3600000 + ts.mm * 60000 + ts.ss * 1000 + ts.fff : Nat)

/-- The epoch time value of `new Date("1970-01-01T" + s)` for a
conforming `s`: an explicit offset fixes the instant; without one the
string is read as local time, so the environment offset `off` is
subtracted. -/
def fallbackValue (off : Int) (ts : TimeSpec) : Int :=
  match ts.tz with
  | some z => tsWrittenMs ts - z * 60000
  | none => tsWrittenMs ts - off * 60000

/-- `Date.prototype.getHours`: the hour of the time value `t` in the
environment's local timezone. -/
def jsGetHours (off t : Int) : Nat :=
  (((t + off * 60000).emod 86400000).ediv 3600000).toNat

/-- `Date.prototype.getMinutes` in the environment's local timezone. -/
def jsGetMinutes (off t : Int) : Nat :=
  ((((t + off * 60000).emod 86400000).ediv 60000).emod 60).toNat

/-- Branch (c) of `normalizeTime`: parse `"1970-01-01T" + trimmed` as a
Date (the concatenation conforms exactly when `trimmed` is a time
specification) and format its local hour and minute. -/
def timeFallback (off : Int) (t : List Char) : Option (List Char) :=
  (parseTimeSpecStr t).map (fun ts =>
    pad2 (jsGetHours off (fallbackValue off ts)) ++
      ':' :: pad2 (jsGetMinutes off (fallbackValue off ts)))

/-- The message of the error thrown by `normalizeTime`. -/
def invalidTimeMsg : List Char := ("Invalid time format").toList

/-- The message of the error thrown by `normalizeDate`. -/
def invalidDateMsg : List Char := ("Invalid date format").toList

/-- Embedding of `normalizeTime` from src/database/event.model.ts: trim,
then try the 24-hour pattern, the 12-hour pattern, and the Date fallback
in this order; throw when none applies. -/
def normalizeTime (off : Int) (input : List Char) : Except (List Char) (List Char) :=
  match parse24 (jsTrim input) with
  | some o => .ok o
  | none =>
    match parseAmPm (jsTrim input) with
    | some o => .ok o
    | none =>
      match timeFallback off (jsTrim input) with
      | some o => .ok o
      | none => .error invalidTimeMsg

/-- Gregorian leap-year predicate. -/
def isLeap (y : Nat) : Bool :=
  decide ((y % 4 = 0 ∧ y % 100 ≠ 0) ∨ y % 400 = 0)

/-- Days in month `m` of year `y`. -/
def daysInMonth (y m : Nat) : Nat :=
  if m = 2 then (if isLeap y then 29 else 28)
  else if m = 4 ∨ m = 6 ∨ m = 9 ∨ m = 11 then 30
  else 31

/-- Days from the epoch 1970-01-01 to the civil date `y-m-d`
(Howard Hinnant's `days_from_civil` algorithm). -/
def daysFromCivil (y m d : Nat) : Int :=
  let yi : Int := (y : Int) - (if m ≤ 2 then 1 else 0)
  let era : Int := yi.ediv 400
  let yoe : Nat := (yi - era * 400).toNat
  let mp : Nat := if 2 < m then m - 3 else m + 9
  let doy : Nat := (153 * mp + 2) / 5 + d - 1
  let doe : Nat := yoe * 365 + yoe / 4 - yoe / 100 + doy
  era * 146097 + (doe : Int) - 719468

/-- Civil date (year, month, day) of the day `z` days after 1970-01-01
(Howard Hinnant's `civil_from_days` algorithm). -/
def civilFromDays (z0 : Int) : Int × Nat × Nat :=
  let z : Int := z0 + 719468
  let era : Int := z.ediv 146097
  let doe : Nat := (z - era * 146097).toNat
  let yoe : Nat := (doe - doe / 1460 + doe / 36524 - doe / 146096) / 365
  let doy : Nat := doe - (365 * yoe + yoe / 4 - yoe / 100)
  let mp : Nat := (5 * doy + 2) / 153
  let d : Nat := doy - (153 * mp + 2) / 5 + 1
  let m : Nat := if mp < 10 then mp + 3 else mp - 9
  ((yoe : Int) + era * 400 + (if m ≤ 2 then 1 else 0), m, d)

/-- The year component of `toISOString`: four digits inside 0..9999,
otherwise the expanded-year form (explicit sign and six digits). -/
def renderYear (y : Int) : List Char :=
  if 0 ≤ y ∧ y ≤ 9999 then padDigits 4 y.toNat
  else (if y < 0 then '-' else '+') :: padDigits 6 y.natAbs

/-- `Date.prototype.toISOString` on the time value `t` (milliseconds since
the epoch): the UTC calendar fields rendered as
`YYYY-MM-DDTHH:mm:ss.fffZ`. -/
def toISOString (t : Int) : List Char :=
  let msd : Nat := (t.emod 86400000).toNat
  renderYear (civilFromDays (t.ediv 86400000)).1 ++
    '-' :: (pad2 (civilFromDays (t.ediv 86400000)).2.1 ++
    '-' :: (pad2 (civilFromDays (t.ediv 86400000)).2.2 ++
    'T' :: (pad2 (msd / 3600000) ++
    ':' :: (pad2 (msd / 60000 % 60) ++
    ':' :: (pad2 (msd / 1000 % 60) ++
    '.' :: (pad3 (msd % 1000) ++ ['Z']))))))

/-- A parsed Date Time String Format date: the (possibly defaulted)
calendar fields and the optional time specification. -/
structure DateParts where
  y : Nat
  m : Nat
  d : Nat
  time : Option TimeSpec
deriving DecidableEq

/-- Parse a string of the ECMAScript Date Time String Format
`YYYY[-MM[-DD]][THH:mm[:ss[.fff]][Z|±HH:mm]]` with a four-digit year,
validating the calendar fields (as V8 does for this format). -/
def parseDateString : List Char → Option DateParts
  | y1 :: y2 :: y3 :: y4 :: rest =>
    if isDigitCh y1 && isDigitCh y2 && isDigitCh y3 && isDigitCh y4 then
      let y := digitVal y1 * 1000 + digitVal y2 * 100 + digitVal y3 * 10 + digitVal y4
      match rest with
      | [] => some ⟨y, 1, 1, none⟩
      | 'T' :: ts => (parseTimeSpecStr ts).map (fun t => ⟨y, 1, 1, some t⟩)
      | '-' :: m1 :: m2 :: rest2 =>
        if isDigitCh m1 && isDigitCh m2 &&
           decide (1 ≤ digitVal m1 * 10 + digitVal m2 ∧ digitVal m1 * 10 + digitVal m2 ≤ 12) then
          let m := digitVal m1 * 10 + digitVal m2
          match rest2 with
          | [] => some ⟨y, m, 1, none⟩
          | 'T' :: ts => (parseTimeSpecStr ts).map (fun t => ⟨y, m, 1, some t⟩)
          | '-' :: d1 :: d2 :: rest3 =>
            if isDigitCh d1 && isDigitCh d2 &&
               decide (1 ≤ digitVal d1 * 10 + digitVal d2 ∧
                 digitVal d1 * 10 + digitVal d2 ≤ daysInMonth y m) then
              let d := digitVal d1 * 10 + digitVal d2
              match rest3 with
              | [] => some ⟨y, m, d, none⟩
              | 'T' :: ts => (parseTimeSpecStr ts).map (fun t => ⟨y, m, d, some t⟩)
              | _ => none
            else none
          | _ => none
        else none
      | _ => none
    else none
  | _ => none

/-- The time value denoted by parsed date parts: date-only forms are UTC;
date-time forms without an offset are local time (the environment offset
`off` is subtracted); an explicit offset fixes the instant. -/
def dateValue (off : Int) (p : DateParts) : Int :=
  match p.time with
  | none => daysFromCivil p.y p.m p.d * 86400000
  | some ts => daysFromCivil p.y p.m p.d * 86400000 + fallbackValue off ts

/-- `new Date(input)` followed by `getTime()`: the time value when `input`
conforms to the Date Time String Format, `none` otherwise. -/
def jsParseDate (off : Int) (s : List Char) : Option Int :=
  (parseDateString s).map (dateValue off)

/-- Embedding of `normalizeDate` from src/database/event.model.ts:
`new Date(input)`, throw when unparseable, otherwise `toISOString()`. -/
def normalizeDate (off : Int) (input : List Char) : Except (List Char) (List Char) :=
  match jsParseDate off input with
  | some t => .ok (toISOString t)
  | none => .error invalidDateMsg

/-- Consume exactly `n` ASCII digits. -/
def checkDigits : Nat → List Char → Option (List Char)
  | 0, s => some s
  | n + 1, c :: s => if isDigitCh c then checkDigits n s else none
  | _ + 1, [] => none

/-- Consume exactly the literal character `c`. -/
def checkLit (c : Char) : List Char → Option (List Char)
  | c2 :: s => if c2 = c then some s else none
  | [] => none

/-- Consume the year part of an ISO-8601 timestamp: either a sign followed
by six digits, or four digits. -/
def checkYear : List Char → Option (List Char)
  | [] => none
  | c :: r =>
    if c = '+' ∨ c = '-' then checkDigits 6 r else checkDigits 4 (c :: r)

/-- Syntactic well-formedness of a full ISO-8601 timestamp string as
produced by `toISOString`: `YYYY-MM-DDTHH:mm:ss.fffZ` with an optionally
expanded, signed year. -/
def isIsoTimestamp (s : List Char) : Bool :=
  decide ((((((((((((((checkYear s).bind (checkLit '-')).bind
    (checkDigits 2)).bind (checkLit '-')).bind (checkDigits 2)).bind
    (checkLit 'T')).bind (checkDigits 2)).bind (checkLit ':')).bind
    (checkDigits 2)).bind (checkLit ':')).bind (checkDigits 2)).bind
    (checkLit '.')).bind (checkDigits 3)).bind (checkLit 'Z') = some [])

/-- The error taxonomy of the save pipeline: mongoose validation failures
(collecting the offending path names), the referential-integrity error
thrown by the Booking pre-save hook, the date and time format errors
thrown by the Event pre-save hook, and the unique-index conflict raised by
the store. -/
inductive SaveError where
  | validationError (fields : List (List Char))
  | referentialIntegrityError
  | formatError (msg : List Char)
  | storageConflictError
deriving DecidableEq

/-- A persisted Event record, reduced to the fields the claims inspect:
its identifier (the `_id` the Booking hook queries) and its unique slug. -/
structure StoredEvent where
  id : Nat
  slug : List Char
deriving DecidableEq

/-- A Booking document: `eventId` reference and email address. -/
structure BookingDoc where
  eventId : Nat
  email : List Char
deriving DecidableEq

/-- The record store visible to the two models. -/
structure Store where
  events : List StoredEvent
  bookings : List BookingDoc
deriving DecidableEq

/-- The schema setters on `Booking.email` (`lowercase: true, trim: true`):
the stored value is the trimmed, lower-cased input. -/
def normEmail (e : List Char) : List Char :=
  (jsTrim e).map jsToLower

/-- Embedding of `EMAIL_REGEX = /^[^\s@]+@[^\s@]+\.[^\s@]+$/` as a
deterministic checker.  A matching string contains exactly one `@` (no
alternative of the pattern admits `@`), so the split at the first `@` is
the split of any successful match; the domain part matches
`[^\s@]+\.[^\s@]+` exactly when it is `@`-free, whitespace-free and has a
dot that is neither its first nor its last character. -/
def emailRegexTest (s : List Char) : Bool :=
  match s.dropWhile (fun c => !(c = '@')) with
  | '@' :: domain =>
    !(s.takeWhile (fun c => !(c = '@')) = []) &&
    (s.takeWhile (fun c => !(c = '@'))).all (fun c => !(isWs c)) &&
    domain.all (fun c => !(isWs c || c = '@')) &&
    (match domain with
     | [] => false
     | _ :: rest => rest.dropLast.contains '.')
  | _ => false

/-- Field-name constants used in validation errors. -/
def fTitle : List Char := ("title").toList

/-- Field name `slug`. -/
def fSlug : List Char := ("slug").toList

/-- Field name `description`. -/
def fDescription : List Char := ("description").toList

/-- Field name `overview`. -/
def fOverview : List Char := ("overview").toList

/-- Field name `image`. -/
def fImage : List Char := ("image").toList

/-- Field name `venue`. -/
def fVenue : List Char := ("venue").toList

/-- Field name `location`. -/
def fLocation : List Char := ("location").toList

/-- Field name `date`. -/
def fDate : List Char := ("date").toList

/-- Field name `time`. -/
def fTime : List Char := ("time").toList

/-- Field name `mode`. -/
def fMode : List Char := ("mode").toList

/-- Field name `audience`. -/
def fAudience : List Char := ("audience").toList

/-- Field name `agenda`. -/
def fAgenda : List Char := ("agenda").toList

/-- Field name `organizer`. -/
def fOrganizer : List Char := ("organizer").toList

/-- Field name `tags`. -/
def fTags : List Char := ("tags").toList

/-- Field name `email`. -/
def fEmail : List Char := ("email").toList

/-- Saving a new Booking (`Booking.build(attrs)` followed by `save()`).
Mongoose runs schema validation as the first `pre('save')` middleware, so
the email format check precedes the user hook; the user hook then queries
`Event.exists({ _id: this.eventId })` and throws when the Event is absent;
only then is the record persisted. -/
def createBooking (store : Store) (d : BookingDoc) : Except SaveError Store :=
  if emailRegexTest (normEmail d.email) then
    if store.events.any (fun ev => ev.id == d.eventId) then
      .ok ⟨store.events, store.bookings ++ [⟨d.eventId, normEmail d.email⟩]⟩
    else .error .referentialIntegrityError
  else .error (.validationError [fEmail])

/-- Re-saving an already-persisted, unmodified Booking document.  Mongoose
validation only covers modified paths (vacuous here), but `save()` always
re-runs the whole `pre('save')` chain, so the Event existence check runs
again. -/
def resaveBooking (store : Store) (d : BookingDoc) : Except SaveError Store :=
  if store.events.any (fun ev => ev.id == d.eventId) then .ok store
  else .error .referentialIntegrityError

/-- The raw attributes accepted by `Event.build` (no `slug`: that field is
only ever written by the pre-save hook). -/
structure EventAttrs where
  title : List Char
  description : List Char
  overview : List Char
  image : List Char
  venue : List Char
  location : List Char
  date : List Char
  time : List Char
  mode : List Char
  audience : List Char
  agenda : List (List Char)
  organizer : List Char
  tags : List (List Char)
deriving DecidableEq

/-- The schema setters of the Event schema: `trim: true` on title,
overview, image, venue, location, mode, audience and organizer (not on
description, date, time, agenda, tags). -/
def applyEventSetters (a : EventAttrs) : EventAttrs :=
  { a with
    title := jsTrim a.title
    overview := jsTrim a.overview
    image := jsTrim a.image
    venue := jsTrim a.venue
    location := jsTrim a.location
    mode := jsTrim a.mode
    audience := jsTrim a.audience
    organizer := jsTrim a.organizer }

/-- Mongoose validation of a new Event document built from `e` (after
setters), returning the failing path names in schema order.  String
`required` fails on an empty string; the custom validators on title and
description reject whitespace-only values; agenda and tags must be
nonempty sequences.  The `slug` path is always failing on a new document:
the hook that generates it is `pre('save')` middleware, and mongoose runs
validation before any user `pre('save')` hook, so at validation time the
required `slug` is still unset. -/
def validateNewEvent (e : EventAttrs) : List (List Char) :=
  (if e.title = [] then [fTitle] else []) ++
  fSlug ::
  ((if jsTrim e.description = [] then [fDescription] else []) ++
   (if e.overview = [] then [fOverview] else []) ++
   (if e.image = [] then [fImage] else []) ++
   (if e.venue = [] then [fVenue] else []) ++
   (if e.location = [] then [fLocation] else []) ++
   (if e.date = [] then [fDate] else []) ++
   (if e.time = [] then [fTime] else []) ++
   (if e.mode = [] then [fMode] else []) ++
   (if e.audience = [] then [fAudience] else []) ++
   (if e.agenda = [] then [fAgenda] else []) ++
   (if e.organizer = [] then [fOrganizer] else []) ++
   (if e.tags = [] then [fTags] else []))

/-- Saving a new Event (`Event.build(attrs)` followed by `save()`):
setters, then validation, then the pre-save hook (slug generation and
date/time normalization, whose thrown errors abort the save), then the
unique-index check on `slug` at write time.  `newId` is the identifier the
store assigns to the inserted record. -/
def saveNewEvent (off : Int) (newId : Nat) (store : Store) (a : EventAttrs) :
    Except SaveError Store :=
  let e := applyEventSetters a
  match validateNewEvent e with
  | [] =>
    match normalizeDate off e.date with
    | .error m => .error (.formatError m)
    | .ok _ =>
      match normalizeTime off e.time with
      | .error m => .error (.formatError m)
      | .ok _ =>
        if store.events.any (fun ev => ev.slug == slugify e.title) then
          .error .storageConflictError
        else .ok ⟨store.events ++ [⟨newId, slugify e.title⟩], store.bookings⟩
  | fs => .error (.validationError fs)

/-- An Event whose string fields are empty or whitespace-only and whose
sequences are empty: every static constraint fails at once. -/
def badEventAttrs : EventAttrs :=
  ⟨(" ").toList, ("  ").toList, [], [], [], [], [], [], [], [], [], [], []⟩

/-- The spec's example Event attributes: title `My Talk!` and otherwise
well-formed fields. -/
def myTalkAttrs : EventAttrs :=
  ⟨("My Talk!").toList, ("A talk").toList, ("o").toList, ("i").toList,
   ("v").toList, ("l").toList, ("2026-06-10").toList, ("10:00").toList,
   ("m").toList, ("a").toList, [("x").toList], ("org").toList, [("t").toList]⟩

theorem mem_collapseRunsAux {p : Char → Bool} {r c : Char} :
    ∀ (b : Bool) (l : List Char), c ∈ collapseRunsAux p r b l →
      c = r ∨ (c ∈ l ∧ p c = false) := by
  intro b l
  induction l generalizing b with
  | nil => simp [collapseRunsAux]
  | cons a t ih =>
    intro h
    by_cases hp : p a
    · cases b with
      | true =>
        simp only [collapseRunsAux, hp, if_true] at h
        rcases ih true h with h1 | ⟨h2, h3⟩
        · exact Or.inl h1
        · exact Or.inr ⟨List.mem_cons_of_mem a h2, h3⟩
      | false =>
        simp only [collapseRunsAux, hp, if_true] at h
        rcases List.mem_cons.mp h with h1 | h1
        · exact Or.inl h1
        · rcases ih true h1 with h2 | ⟨h3, h4⟩
          · exact Or.inl h2
          · exact Or.inr ⟨List.mem_cons_of_mem a h3, h4⟩
    · simp only [collapseRunsAux, hp, if_false] at h
      rcases List.mem_cons.mp h with h1 | h1
      · subst h1
        exact Or.inr ⟨List.mem_cons_self c t, Bool.of_not_eq_true hp⟩
      · rcases ih false h1 with h2 | ⟨h3, h4⟩
        · exact Or.inl h2
        · exact Or.inr ⟨List.mem_cons_of_mem a h3, h4⟩

theorem collapseRunsAux_true_shape {p : Char → Bool} {r : Char} :
    ∀ l : List Char, collapseRunsAux p r true l = [] ∨
      ∃ c t, collapseRunsAux p r true l = c :: t ∧ p c = false := by
  intro l
  induction l with
  | nil => exact Or.inl rfl
  | cons a t ih =>
    by_cases hp : p a
    · simpa [collapseRunsAux, hp] using ih
    · exact Or.inr ⟨a, collapseRunsAux p r false t,
        by simp [collapseRunsAux, hp], Bool.of_not_eq_true hp⟩

theorem noRun_cons_of_head {p : Char → Bool} {a : Char} {l : List Char}
    (h1 : noRun p l = true)
    (h2 : p a = false ∨ l = [] ∨ ∃ c t, l = c :: t ∧ p c = false) :
    noRun p (a :: l) = true := by
  rcases h2 with h2 | h2 | ⟨c, t, h2, h3⟩
  · cases l with
    | nil => simp [noRun]
    | cons b u => simp [noRun, h2, h1]
  · simp [h2, noRun]
  · subst h2
    simp [noRun, h3]
    exact h1

theorem noRun_collapseRunsAux {p : Char → Bool} {r : Char} :
    ∀ (b : Bool) (l : List Char), noRun p (collapseRunsAux p r b l) = true := by
  intro b l
  induction l generalizing b with
  | nil => simp [collapseRunsAux, noRun]
  | cons a t ih =>
    by_cases hp : p a
    · cases b with
      | true => simpa [collapseRunsAux, hp] using ih true
      | false =>
        simp only [collapseRunsAux, hp, if_true]
        refine noRun_cons_of_head (ih true) ?_
        rcases collapseRunsAux_true_shape (p := p) (r := r) t with h | ⟨c, u, h, hc⟩
        · exact Or.inr (Or.inl h)
        · exact Or.inr (Or.inr ⟨c, u, h, hc⟩)
    · simp only [collapseRunsAux, hp, if_false]
      exact noRun_cons_of_head (ih false) (Or.inl (Bool.of_not_eq_true hp))

theorem collapseRunsAux_of_not {p : Char → Bool} {r : Char} :
    ∀ l : List Char, (∀ c ∈ l, p c = false) → collapseRunsAux p r false l = l := by
  intro l h
  induction l with
  | nil => rfl
  | cons a t ih =>
    have ha : p a = false := h a (List.mem_cons_self a t)
    simp only [collapseRunsAux, ha, Bool.false_eq_true, if_false, List.cons.injEq, true_and]
    exact ih (fun c hc => h c (List.mem_cons_of_mem a hc))

theorem collapseRunsAux_true_eq_false {p : Char → Bool} {r : Char} {l : List Char}
    (h : l = [] ∨ ∃ c t, l = c :: t ∧ p c = false) :
    collapseRunsAux p r true l = collapseRunsAux p r false l := by
  rcases h with h | ⟨c, t, h, hc⟩
  · subst h; rfl
  · subst h
    simp [collapseRunsAux, hc]

theorem collapseRunsAux_id {p : Char → Bool} {r : Char} :
    ∀ l : List Char, (∀ c ∈ l, p c = true → c = r) → noRun p l = true →
      collapseRunsAux p r false l = l := by
  intro l
  induction l with
  | nil => intro _ _; rfl
  | cons a t ih =>
    intro hall hnr
    have hnt : noRun p t = true := by
      cases t with
      | nil => rfl
      | cons b u =>
        simp only [noRun, Bool.and_eq_true] at hnr
        exact hnr.2
    have iht : collapseRunsAux p r false t = t :=
      ih (fun c hc hpc => hall c (List.mem_cons_of_mem a hc) hpc) hnt
    by_cases hp : p a
    · have har : a = r := hall a (List.mem_cons_self a t) hp
      have htshape : t = [] ∨ ∃ c u, t = c :: u ∧ p c = false := by
        cases t with
        | nil => exact Or.inl rfl
        | cons b u =>
          simp only [noRun, Bool.and_eq_true, Bool.not_eq_true'] at hnr
          rcases Bool.and_eq_false_iff.mp hnr.1 with h | h
          · rw [hp] at h; exact absurd h (by simp)
          · exact Or.inr ⟨b, u, rfl, h⟩
      have h1 : collapseRunsAux p r false (a :: t) = r :: collapseRunsAux p r true t := by
        simp [collapseRunsAux, hp]
      rw [h1, collapseRunsAux_true_eq_false htshape, iht, har]
    · have hp2 : p a = false := Bool.of_not_eq_true hp
      have h1 : collapseRunsAux p r false (a :: t) = a :: collapseRunsAux p r false t := by
        simp [collapseRunsAux, hp2]
      rw [h1, iht]

theorem dropWhile_eq_self_of {p : Char → Bool} {l : List Char}
    (h : ∀ c ∈ l, p c = false) : l.dropWhile p = l := by
  cases l with
  | nil => rfl
  | cons a t => simp [List.dropWhile_cons, h a (List.mem_cons_self a t)]

theorem jsTrim_eq_self_of {l : List Char}
    (h : ∀ c ∈ l, isWs c = false) : jsTrim l = l := by
  unfold jsTrim
  rw [dropWhile_eq_self_of h, dropWhile_eq_self_of (fun c hc => h c (by simpa using hc)),
    List.reverse_reverse]

theorem slugify_mem {s : List Char} {c : Char} (h : c ∈ slugify s) :
    isSlugChar c = true := by
  unfold slugify collapseRuns at h
  rcases mem_collapseRunsAux _ _ h with h1 | ⟨h1, h2⟩
  · subst h1; decide
  · rcases mem_collapseRunsAux _ _ h1 with h3 | ⟨h3, h4⟩
    · subst h3; decide
    · have h5 := List.mem_filter.mp h3
      have h6 := h5.2
      simp only [slugKeep, Bool.or_eq_true, decide_eq_true_eq] at h6
      simp only [isSlugChar, decide_eq_true_eq]
      rcases h6 with (h7 | h7) | h7
      · rcases h7 with h8 | h8
        · exact Or.inl h8
        · exact Or.inr (Or.inl h8)
      · rw [h7] at h4; exact absurd h4 (by simp)
      · exact Or.inr (Or.inr h7)

theorem slugify_noRun (s : List Char) : noRun isHyphen (slugify s) = true :=
  noRun_collapseRunsAux false _

theorem map_eq_self_of {f : Char → Char} {l : List Char}
    (h : ∀ c ∈ l, f c = c) : l.map f = l := by
  induction l with
  | nil => rfl
  | cons a t ih =>
    simp only [List.map_cons, h a (List.mem_cons_self a t), List.cons.injEq, true_and]
    exact ih (fun c hc => h c (List.mem_cons_of_mem a hc))

theorem filter_eq_self_of {p : Char → Bool} {l : List Char}
    (h : ∀ c ∈ l, p c = true) : l.filter p = l := by
  induction l with
  | nil => rfl
  | cons a t ih =>
    simp only [List.filter_cons, h a (List.mem_cons_self a t), if_true, List.cons.injEq, true_and]
    exact ih (fun c hc => h c (List.mem_cons_of_mem a hc))

theorem slugChar_not_ws {c : Char} (h : isSlugChar c = true) : isWs c = false := by
  simp only [isSlugChar, decide_eq_true_eq] at h
  simp only [isWs, decide_eq_false_iff_not]
  omega

theorem slugify_idem_aux (s : List Char) : slugify (slugify s) = slugify s := by
  have hmem : ∀ c ∈ slugify s, isSlugChar c = true := fun c hc => slugify_mem hc
  have hlower : (slugify s).map jsToLower = slugify s := by
    refine map_eq_self_of (fun c hc => ?_)
    have h1 := hmem c hc
    simp only [isSlugChar, decide_eq_true_eq] at h1
    simp only [jsToLower, ite_eq_right_iff]
    intro h2
    omega
  have hnws : ∀ c ∈ slugify s, isWs c = false := fun c hc => slugChar_not_ws (hmem c hc)
  have htrim : jsTrim (slugify s) = slugify s := jsTrim_eq_self_of hnws
  have hfilter : (slugify s).filter slugKeep = slugify s := by
    refine filter_eq_self_of (fun c hc => ?_)
    have h1 := hmem c hc
    simp only [isSlugChar, decide_eq_true_eq] at h1
    simp only [slugKeep, Bool.or_eq_true, decide_eq_true_eq]
    rcases h1 with h2 | h2 | h2
    · exact Or.inl (Or.inl (Or.inl h2))
    · exact Or.inl (Or.inl (Or.inr h2))
    · exact Or.inr h2
  have hws : collapseRuns isWs '-' (slugify s) = slugify s :=
    collapseRunsAux_of_not _ hnws
  have hhyp : collapseRuns isHyphen '-' (slugify s) = slugify s := by
    refine collapseRunsAux_id _ (fun c hc hpc => ?_) (slugify_noRun s)
    simp only [isHyphen, decide_eq_true_eq] at hpc
    apply Char.ext
    apply UInt32.ext
    simpa [Char.toNat] using hpc
  calc slugify (slugify s)
      = collapseRuns isHyphen '-' (collapseRuns isWs '-'
          ((jsTrim ((slugify s).map jsToLower)).filter slugKeep)) := rfl
    _ = slugify s := by rw [hlower, htrim, hfilter, hws, hhyp]

/-- Claim C6: slugify output contains only characters in `[a-z0-9-]` with
no duplicated hyphens; it collapses runs; it never errors and may return
an empty string; `slugify "Hello   World!!" = "hello-world"`. -/
theorem claim_C6_slugify_output :
    (∀ s : List Char, (slugify s).all isSlugChar = true ∧
      noRun isHyphen (slugify s) = true) ∧
    slugify (("Hello   World!!").toList) = ("hello-world").toList ∧
    slugify (("!!!").toList) = [] := by
  refine ⟨fun s => ⟨?_, slugify_noRun s⟩, by decide, by decide⟩
  exact List.all_eq_true.mpr (fun c hc => slugify_mem hc)

/-- Claim C10: slugify is idempotent. -/
theorem claim_C10_slugify_idempotent (s : List Char) :
    slugify (slugify s) = slugify s := slugify_idem_aux s

/-- Claim C2: normalizeTime tries the 24-hour shape, the 12-hour AM/PM
shape and the fixed-date fallback in this order, failing with the format
error when none parses; concrete: `9:00 AM ↦ 09:00`, `21:30 ↦ 21:30`,
`12:00 AM ↦ 00:00`, and `13:00 AM` errors. -/
theorem claim_C2_normalizeTime (off : Int) :
    normalizeTime off (("9:00 AM").toList) = Except.ok (("09:00").toList) ∧
    normalizeTime off (("21:30").toList) = Except.ok (("21:30").toList) ∧
    normalizeTime off (("12:00 AM").toList) = Except.ok (("00:00").toList) ∧
    normalizeTime off (("13:00 AM").toList) = Except.error invalidTimeMsg ∧
    (∀ s o, parse24 (jsTrim s) = some o → normalizeTime off s = Except.ok o) ∧
    (∀ s o, parse24 (jsTrim s) = none → parseAmPm (jsTrim s) = some o →
      normalizeTime off s = Except.ok o) ∧
    (∀ s o, parse24 (jsTrim s) = none → parseAmPm (jsTrim s) = none →
      timeFallback off (jsTrim s) = some o → normalizeTime off s = Except.ok o) ∧
    (∀ s, parse24 (jsTrim s) = none → parseAmPm (jsTrim s) = none →
      timeFallback off (jsTrim s) = none →
      normalizeTime off s = Except.error invalidTimeMsg) := by
  refine ⟨rfl, rfl, rfl, rfl, ?_, ?_, ?_, ?_⟩
  · intro s o h1
    simp [normalizeTime, h1]
  · intro s o h1 h2
    simp [normalizeTime, h1, h2]
  · intro s o h1 h2 h3
    simp [normalizeTime, h1, h2, h3]
  · intro s h1 h2 h3
    simp [normalizeTime, h1, h2, h3]

/-- Witness for C2 at concrete inputs: an input outside all three shapes
errors, and a 24-hour input is accepted by the first branch. -/
theorem claim_C2_witness :
    normalizeTime 0 (("soon").toList) = Except.error invalidTimeMsg ∧
    normalizeTime 0 (("7:05").toList) = Except.ok (("07:05").toList) := by
  refine ⟨?_, ?_⟩
  · exact (claim_C2_normalizeTime 0).2.2.2.2.2.2.2 (("soon").toList)
      (by decide) (by decide) (by decide)
  · exact (claim_C2_normalizeTime 0).2.2.2.2.1 (("7:05").toList)
      (("07:05").toList) (by decide)

theorem isDigitCh_digitChar (n : Nat) : isDigitCh (digitChar n) = true := by
  unfold digitChar
  split <;> decide

theorem digitChar_not_sign (n : Nat) : ¬(digitChar n = '+' ∨ digitChar n = '-') := by
  unfold digitChar
  split <;> decide

theorem checkDigits_padDigits (w : Nat) :
    ∀ (n : Nat) (r : List Char), checkDigits w (padDigits w n ++ r) = some r := by
  induction w with
  | zero => intro n r; rfl
  | succ v ih =>
    intro n r
    simp only [padDigits, List.cons_append, checkDigits, isDigitCh_digitChar, if_true]
    exact ih n r

theorem checkYear_pad4 (n : Nat) (r : List Char) :
    checkYear (padDigits 4 n ++ r) = some r := by
  have h4 : padDigits 4 n ++ r = digitChar (n / 10 ^ 3) :: (padDigits 3 n ++ r) := rfl
  rw [h4]
  simp only [checkYear]
  rw [if_neg (digitChar_not_sign _)]
  exact checkDigits_padDigits 4 n r

theorem checkYear_renderYear (y : Int) (r : List Char) :
    checkYear (renderYear y ++ r) = some r := by
  unfold renderYear
  by_cases h : 0 ≤ y ∧ y ≤ 9999
  · rw [if_pos h]
    exact checkYear_pad4 y.toNat r
  · rw [if_neg h]
    by_cases hneg : y < 0
    · rw [if_pos hneg]
      simp only [List.cons_append, checkYear]
      rw [if_pos (Or.inr trivial)]
      exact checkDigits_padDigits 6 y.natAbs r
    · rw [if_neg hneg]
      simp only [List.cons_append, checkYear]
      rw [if_pos (Or.inl trivial)]
      exact checkDigits_padDigits 6 y.natAbs r

theorem checkLit_cons (c : Char) (r : List Char) : checkLit c (c :: r) = some r := by
  simp [checkLit]

theorem isIso_render (y : Int) (m d hh mi ss ms : Nat) :
    isIsoTimestamp (renderYear y ++
      '-' :: (pad2 m ++ '-' :: (pad2 d ++ 'T' :: (pad2 hh ++
      ':' :: (pad2 mi ++ ':' :: (pad2 ss ++ '.' :: (pad3 ms ++ ['Z']))))))) = true := by
  unfold isIsoTimestamp
  rw [checkYear_renderYear]
  simp only [Option.some_bind, checkLit_cons, pad2, pad3, checkDigits_padDigits]
  decide

/-- Claim C3: normalizeDate returns the full ISO-8601 timestamp of every
parseable input and errors on unparseable input; concretely `2026-06-10`
maps to an ISO timestamp with date component `2026-06-10`, and
`not-a-date` errors. -/
theorem claim_C3_normalizeDate (off : Int) :
    normalizeDate off (("2026-06-10").toList) =
      Except.ok (("2026-06-10T00:00:00.000Z").toList) ∧
    isIsoTimestamp (("2026-06-10T00:00:00.000Z").toList) = true ∧
    (("2026-06-10T00:00:00.000Z").toList).take 10 = ("2026-06-10").toList ∧
    normalizeDate off (("not-a-date").toList) = Except.error invalidDateMsg ∧
    (∀ s t, jsParseDate off s = some t →
      normalizeDate off s = Except.ok (toISOString t)) ∧
    (∀ t : Int, isIsoTimestamp (toISOString t) = true) ∧
    (∀ s, jsParseDate off s = none →
      normalizeDate off s = Except.error invalidDateMsg) := by
  refine ⟨?_, by decide, by decide, ?_, ?_, ?_, ?_⟩
  · have hp : parseDateString (("2026-06-10").toList) = some ⟨2026, 6, 10, none⟩ := by
      decide
    simp only [normalizeDate, jsParseDate, hp, Option.map_some', dateValue]
    decide
  · have hp : parseDateString (("not-a-date").toList) = none := by decide
    simp only [normalizeDate, jsParseDate, hp, Option.map_none']
  · intro s t h
    simp [normalizeDate, h]
  · intro t
    exact isIso_render _ _ _ _ _ _ _
  · intro s h
    simp [normalizeDate, h]

/-- Witness for C3 at concrete inputs: a parseable date one day past the
epoch and an unparseable string. -/
theorem claim_C3_witness :
    normalizeDate 0 (("1970-01-02").toList) =
      Except.ok (toISOString 86400000) ∧
    normalizeDate 0 (("x").toList) = Except.error invalidDateMsg := by
  refine ⟨?_, ?_⟩
  · exact (claim_C3_normalizeDate 0).2.2.2.2.1 (("1970-01-02").toList)
      86400000 (by decide)
  · exact (claim_C3_normalizeDate 0).2.2.2.2.2.2 (("x").toList) (by decide)

/-- Counterexample to C8 as stated: both normalizers read the environment
timezone through the Date fallback, so evaluations in different
environments disagree on `12:00Z` (time) and `2026-06-10T12:00` (date). -/
theorem claim_C8_counterexample :
    ¬(normalizeTime 0 (("12:00Z").toList) = normalizeTime 60 (("12:00Z").toList)) ∧
    ¬(normalizeDate 0 (("2026-06-10T12:00").toList) =
      normalizeDate 60 (("2026-06-10T12:00").toList)) := by
  decide

/-- Claim C8 (amended): both functions are deterministic given the input
and the environment offset; the first two time branches, timezone-free
fallback times, date-only dates and explicitly-timezoned dates are
environment-independent; inputs outside the grammar error in every
environment, never yielding a silent fallback value. -/
theorem claim_C8_amended_determinism (off off2 : Int) :
    (∀ s o, parse24 (jsTrim s) = some o →
      normalizeTime off s = normalizeTime off2 s) ∧
    (∀ s o, parse24 (jsTrim s) = none → parseAmPm (jsTrim s) = some o →
      normalizeTime off s = normalizeTime off2 s) ∧
    (∀ s ts, parse24 (jsTrim s) = none → parseAmPm (jsTrim s) = none →
      parseTimeSpecStr (jsTrim s) = some ts → ts.tz = none →
      normalizeTime off s = normalizeTime off2 s) ∧
    (∀ s, parse24 (jsTrim s) = none → parseAmPm (jsTrim s) = none →
      parseTimeSpecStr (jsTrim s) = none →
      normalizeTime off s = Except.error invalidTimeMsg ∧
      normalizeTime off2 s = Except.error invalidTimeMsg) ∧
    (∀ s p, parseDateString s = some p → p.time = none →
      normalizeDate off s = normalizeDate off2 s) ∧
    (∀ s p ts z, parseDateString s = some p → p.time = some ts →
      ts.tz = some z → normalizeDate off s = normalizeDate off2 s) ∧
    (∀ s, parseDateString s = none →
      normalizeDate off s = Except.error invalidDateMsg ∧
      normalizeDate off2 s = Except.error invalidDateMsg) := by
  refine ⟨?_, ?_, ?_, ?_, ?_, ?_, ?_⟩
  · intro s o h1
    simp [normalizeTime, h1]
  · intro s o h1 h2
    simp [normalizeTime, h1, h2]
  · intro s ts h1 h2 h3 h4
    have hf : ∀ o : Int, timeFallback o (jsTrim s) =
        some (pad2 ((((tsWrittenMs ts).emod 86400000).ediv 3600000).toNat) ++
          ':' :: pad2 (((((tsWrittenMs ts).emod 86400000).ediv 60000).emod 60).toNat)) := by
      intro o
      have hcancel : tsWrittenMs ts - o * 60000 + o * 60000 = tsWrittenMs ts := by ring
      simp only [timeFallback, h3, Option.map_some', fallbackValue, h4,
        jsGetHours, jsGetMinutes, hcancel]
    simp [normalizeTime, h1, h2, hf off, hf off2]
  · intro s h1 h2 h3
    constructor
    · simp [normalizeTime, h1, h2, timeFallback, h3]
    · simp [normalizeTime, h1, h2, timeFallback, h3]
  · intro s p h1 h2
    have hval : ∀ o : Int, normalizeDate o s =
        Except.ok (toISOString (daysFromCivil p.y p.m p.d * 86400000)) := by
      intro o
      simp only [normalizeDate, jsParseDate, h1, Option.map_some', dateValue, h2]
    rw [hval off, hval off2]
  · intro s p ts z h1 h2 h3
    have hval : ∀ o : Int, normalizeDate o s =
        Except.ok (toISOString (daysFromCivil p.y p.m p.d * 86400000 +
          (tsWrittenMs ts - z * 60000))) := by
      intro o
      simp only [normalizeDate, jsParseDate, h1, Option.map_some', dateValue, h2,
        fallbackValue, h3]
    rw [hval off, hval off2]
  · intro s h1
    constructor
    · simp [normalizeDate, jsParseDate, h1]
    · simp [normalizeDate, jsParseDate, h1]

/-- Witness for the amended C8 at concrete inputs: a branch-(a) time and a
date-only date are environment-independent. -/
theorem claim_C8_witness :
    normalizeTime 0 (("21:30").toList) = normalizeTime 60 (("21:30").toList) ∧
    normalizeDate 0 (("2026-06-10").toList) = normalizeDate 60 (("2026-06-10").toList) := by
  refine ⟨?_, ?_⟩
  · exact (claim_C8_amended_determinism 0 60).1 (("21:30").toList)
      (("21:30").toList) (by decide)
  · exact (claim_C8_amended_determinism 0 60).2.2.2.2.1 (("2026-06-10").toList)
      ⟨2026, 6, 10, none⟩ (by decide) rfl

/-- Counterexample to C1 as stated: for a Booking whose email fails
validation, the save against a store without the referenced Event fails
with a ValidationError, not a ReferentialIntegrityError (mongoose runs
validation before the user pre-save hook). -/
theorem claim_C1_counterexample :
    (Store.mk [] []).events.any (fun ev => ev.id == (1 : Nat)) = false ∧
    createBooking (Store.mk [] []) ⟨1, ("nope").toList⟩ ≠
      Except.error SaveError.referentialIntegrityError ∧
    createBooking (Store.mk [] []) ⟨1, ("nope").toList⟩ =
      Except.error (SaveError.validationError [fEmail]) := by
  decide

/-- Claim C1 (amended): for every Booking save whose email passes
validation, if no Event with the given eventId exists at save time the
save fails with a ReferentialIntegrityError, inside the save operation
itself, and no record is persisted. -/
theorem claim_C1_missing_event_rejected (store : Store) (d : BookingDoc)
    (hemail : emailRegexTest (normEmail d.email) = true)
    (hno : store.events.any (fun ev => ev.id == d.eventId) = false) :
    createBooking store d = Except.error SaveError.referentialIntegrityError := by
  simp [createBooking, hemail, hno]

/-- Witness for C1 at a concrete store and booking. -/
theorem claim_C1_witness :
    createBooking (Store.mk [] []) ⟨1, ("a@b.co").toList⟩ =
      Except.error SaveError.referentialIntegrityError :=
  claim_C1_missing_event_rejected (Store.mk [] []) ⟨1, ("a@b.co").toList⟩
    (by decide) (by decide)

/-- Claim C7: the Booking email is lower-cased and trimmed and then
checked against the pattern; a failing email aborts the save with a
ValidationError naming `email`; a passing email is persisted in its
normalized form. -/
theorem claim_C7_booking_email (store : Store) (d : BookingDoc) :
    (emailRegexTest (normEmail d.email) = false →
      createBooking store d = Except.error (SaveError.validationError [fEmail])) ∧
    (emailRegexTest (normEmail d.email) = true →
      store.events.any (fun ev => ev.id == d.eventId) = true →
      createBooking store d =
        Except.ok ⟨store.events, store.bookings ++ [⟨d.eventId, normEmail d.email⟩]⟩) := by
  constructor
  · intro h
    simp [createBooking, h]
  · intro h1 h2
    simp [createBooking, h1, h2]

/-- Witness for C7: a malformed email is rejected; a valid email with
surrounding spaces and capitals is stored trimmed and lower-cased. -/
theorem claim_C7_witness :
    createBooking (Store.mk [] []) ⟨1, ("not-an-email").toList⟩ =
      Except.error (SaveError.validationError [fEmail]) ∧
    createBooking (Store.mk [⟨1, ("s").toList⟩] [])
      ⟨1, (" User@Mail.example  ").toList⟩ =
      Except.ok ⟨[⟨1, ("s").toList⟩], [⟨1, ("user@mail.example").toList⟩]⟩ := by
  constructor
  · exact (claim_C7_booking_email (Store.mk [] []) ⟨1, ("not-an-email").toList⟩).1
      (by decide)
  · have h := (claim_C7_booking_email (Store.mk [⟨1, ("s").toList⟩] [])
      ⟨1, (" User@Mail.example  ").toList⟩).2 (by decide) (by decide)
    rw [h]
    decide

/-- Counterexample to C9 as stated: re-saving an already-persisted Booking
does re-run the Event existence check — after the Event disappears, the
re-save fails with a ReferentialIntegrityError, which could not happen if
the check ran only at creation time. -/
theorem claim_C9_counterexample :
    (⟨1, ("a@b.co").toList⟩ : BookingDoc) ∈
      (Store.mk [] [⟨1, ("a@b.co").toList⟩]).bookings ∧
    resaveBooking (Store.mk [] [⟨1, ("a@b.co").toList⟩]) ⟨1, ("a@b.co").toList⟩ =
      Except.error SaveError.referentialIntegrityError := by
  decide

/-- Claim C9 (amended): the pre-save existence check runs on every save,
re-saves included: a re-save fails with a ReferentialIntegrityError
exactly when the referenced Event no longer exists. -/
theorem claim_C9_check_on_every_save (store : Store) (d : BookingDoc) :
    (store.events.any (fun ev => ev.id == d.eventId) = false →
      resaveBooking store d = Except.error SaveError.referentialIntegrityError) ∧
    (store.events.any (fun ev => ev.id == d.eventId) = true →
      resaveBooking store d = Except.ok store) := by
  constructor
  · intro h
    simp [resaveBooking, h]
  · intro h
    simp [resaveBooking, h]

/-- Witness for C9 at concrete stores. -/
theorem claim_C9_witness :
    resaveBooking (Store.mk [] [⟨2, ("a@b.co").toList⟩]) ⟨2, ("a@b.co").toList⟩ =
      Except.error SaveError.referentialIntegrityError ∧
    resaveBooking (Store.mk [⟨2, ("s").toList⟩] [⟨2, ("a@b.co").toList⟩])
      ⟨2, ("a@b.co").toList⟩ =
      Except.ok (Store.mk [⟨2, ("s").toList⟩] [⟨2, ("a@b.co").toList⟩]) := by
  constructor
  · exact (claim_C9_check_on_every_save (Store.mk [] [⟨2, ("a@b.co").toList⟩])
      ⟨2, ("a@b.co").toList⟩).1 (by decide)
  · exact (claim_C9_check_on_every_save
      (Store.mk [⟨2, ("s").toList⟩] [⟨2, ("a@b.co").toList⟩])
      ⟨2, ("a@b.co").toList⟩).2 (by decide)

theorem validateNewEvent_ne_nil (e : EventAttrs) : validateNewEvent e ≠ [] := by
  simp [validateNewEvent]

theorem saveNewEvent_eq_validation (off : Int) (newId : Nat) (store : Store)
    (a : EventAttrs) :
    saveNewEvent off newId store a =
      Except.error (SaveError.validationError (validateNewEvent (applyEventSetters a))) := by
  cases h : validateNewEvent (applyEventSetters a) with
  | nil => exact absurd h (validateNewEvent_ne_nil _)
  | cons f t => simp only [saveNewEvent, h]

/-- Claim C4: any statically invalid field of an Event save — empty-after-
trim title or description, empty agenda or tags, or an empty required
string field — fails the save with a ValidationError naming that field,
and nothing is persisted. -/
theorem claim_C4_event_validation (off : Int) (newId : Nat) (store : Store)
    (a : EventAttrs) :
    (jsTrim a.title = [] → ∃ fs, saveNewEvent off newId store a =
      Except.error (SaveError.validationError fs) ∧ fTitle ∈ fs) ∧
    (jsTrim a.description = [] → ∃ fs, saveNewEvent off newId store a =
      Except.error (SaveError.validationError fs) ∧ fDescription ∈ fs) ∧
    (a.agenda = [] → ∃ fs, saveNewEvent off newId store a =
      Except.error (SaveError.validationError fs) ∧ fAgenda ∈ fs) ∧
    (a.tags = [] → ∃ fs, saveNewEvent off newId store a =
      Except.error (SaveError.validationError fs) ∧ fTags ∈ fs) ∧
    (jsTrim a.overview = [] → ∃ fs, saveNewEvent off newId store a =
      Except.error (SaveError.validationError fs) ∧ fOverview ∈ fs) ∧
    (jsTrim a.image = [] → ∃ fs, saveNewEvent off newId store a =
      Except.error (SaveError.validationError fs) ∧ fImage ∈ fs) ∧
    (jsTrim a.venue = [] → ∃ fs, saveNewEvent off newId store a =
      Except.error (SaveError.validationError fs) ∧ fVenue ∈ fs) ∧
    (jsTrim a.location = [] → ∃ fs, saveNewEvent off newId store a =
      Except.error (SaveError.validationError fs) ∧ fLocation ∈ fs) ∧
    (jsTrim a.mode = [] → ∃ fs, saveNewEvent off newId store a =
      Except.error (SaveError.validationError fs) ∧ fMode ∈ fs) ∧
    (jsTrim a.audience = [] → ∃ fs, saveNewEvent off newId store a =
      Except.error (SaveError.validationError fs) ∧ fAudience ∈ fs) ∧
    (jsTrim a.organizer = [] → ∃ fs, saveNewEvent off newId store a =
      Except.error (SaveError.validationError fs) ∧ fOrganizer ∈ fs) := by
  refine ⟨?_, ?_, ?_, ?_, ?_, ?_, ?_, ?_, ?_, ?_, ?_⟩ <;>
    intro h <;>
    exact ⟨validateNewEvent (applyEventSetters a),
      saveNewEvent_eq_validation off newId store a,
      by simp [validateNewEvent, applyEventSetters, h]⟩

/-- Witness for C4: an Event whose fields are all empty or whitespace is
rejected with every offending field named. -/
theorem claim_C4_witness :
    (∃ fs, saveNewEvent 0 0 (Store.mk [] []) badEventAttrs =
      Except.error (SaveError.validationError fs) ∧ fTitle ∈ fs) ∧
    (∃ fs, saveNewEvent 0 0 (Store.mk [] []) badEventAttrs =
      Except.error (SaveError.validationError fs) ∧ fDescription ∈ fs) ∧
    (∃ fs, saveNewEvent 0 0 (Store.mk [] []) badEventAttrs =
      Except.error (SaveError.validationError fs) ∧ fAgenda ∈ fs) ∧
    (∃ fs, saveNewEvent 0 0 (Store.mk [] []) badEventAttrs =
      Except.error (SaveError.validationError fs) ∧ fTags ∈ fs) ∧
    (∃ fs, saveNewEvent 0 0 (Store.mk [] []) badEventAttrs =
      Except.error (SaveError.validationError fs) ∧ fOverview ∈ fs) ∧
    (∃ fs, saveNewEvent 0 0 (Store.mk [] []) badEventAttrs =
      Except.error (SaveError.validationError fs) ∧ fImage ∈ fs) ∧
    (∃ fs, saveNewEvent 0 0 (Store.mk [] []) badEventAttrs =
      Except.error (SaveError.validationError fs) ∧ fVenue ∈ fs) ∧
    (∃ fs, saveNewEvent 0 0 (Store.mk [] []) badEventAttrs =
      Except.error (SaveError.validationError fs) ∧ fLocation ∈ fs) ∧
    (∃ fs, saveNewEvent 0 0 (Store.mk [] []) badEventAttrs =
      Except.error (SaveError.validationError fs) ∧ fMode ∈ fs) ∧
    (∃ fs, saveNewEvent 0 0 (Store.mk [] []) badEventAttrs =
      Except.error (SaveError.validationError fs) ∧ fAudience ∈ fs) ∧
    (∃ fs, saveNewEvent 0 0 (Store.mk [] []) badEventAttrs =
      Except.error (SaveError.validationError fs) ∧ fOrganizer ∈ fs) := by
  have h := claim_C4_event_validation 0 0 (Store.mk [] []) badEventAttrs
  exact ⟨h.1 (by decide), h.2.1 (by decide), h.2.2.1 (by decide),
    h.2.2.2.1 (by decide), h.2.2.2.2.1 (by decide), h.2.2.2.2.2.1 (by decide),
    h.2.2.2.2.2.2.1 (by decide), h.2.2.2.2.2.2.2.1 (by decide),
    h.2.2.2.2.2.2.2.2.1 (by decide), h.2.2.2.2.2.2.2.2.2.1 (by decide),
    h.2.2.2.2.2.2.2.2.2.2 (by decide)⟩

/-- The divergence behind C5: mongoose validates before user pre-save
hooks, so a brand-new Event reaches validation with its required `slug`
still unset; every creation — including the spec's own example — is
rejected with a ValidationError naming `slug`, and the hook that would set
`slug = slugify(title)` never runs.  The second conjunct shows the slug
the hook would have produced. -/
theorem claim_C5_creation_rejected (off : Int) (newId : Nat) (store : Store) :
    saveNewEvent off newId store myTalkAttrs =
      Except.error (SaveError.validationError [fSlug]) ∧
    slugify (("My Talk!").toList) = ("my-talk").toList := by
  constructor
  · have hv : validateNewEvent (applyEventSetters myTalkAttrs) = [fSlug] := by decide
    rw [saveNewEvent_eq_validation, hv]
  · decide
